import Mathlib

/-!
Shallow embedding of the `Leader` class of leader-election-mongo
(`src/unnamed/part_000`).  The MongoDB store is modelled as an explicit
state (`Db`): a map from collection names to collections of records,
plus error-injection fields standing for the store failing a given
primitive (connectivity loss, permission denial, ...).  Each store
primitive becomes a pure function `Db → Db × Option Err` (or returning a
value), mirroring a promise that resolves or rejects; the promise chains
of the JS methods become explicit matches on those results.  Wall-clock
time (`Date.now()`, `new Date()`) is passed as an explicit integer
parameter (milliseconds).
-/

namespace LeaderElection

/-- A store error, identified by its `codeName` as in the MongoDB driver
(the only field `initDatabase` inspects). -/
structure Err where
  codeName : String
deriving Repr, DecidableEq

/-- A persisted election record: the document
`\x7b leaderId, createdAt \x7d` inserted by `elect()`, together with the
store-assigned insertion identity `_id` (modelled as the value of a
monotone counter `oid`), which is the tie-break key of the sorted query. -/
structure Rec where
  leaderId : String
  createdAt : Int
  oid : Nat
deriving Repr, DecidableEq

/-- A collection: its records plus the `expireAfterSeconds` value of its
TTL index, when `createIndex` has installed one. -/
structure Coll where
  recs : List Rec
  expireAfterSeconds : Option Int
deriving Repr, DecidableEq

/-- The empty collection (no records, no TTL index yet). -/
def Coll.empty : Coll := ⟨[], none⟩

/-- The store state.  `colls` maps a collection name to its contents.
`nextOid` is the monotone counter handing out insertion identities.
`ttlMonitorSleepSecs` is the server parameter the best-effort admin step
tries to set.  The `...Err` fields inject a failure into the
corresponding primitive: `some e` means the next such call rejects
with `e`. -/
structure Db where
  colls : String → Option Coll
  nextOid : Nat
  ttlMonitorSleepSecs : Int
  pingErr : Option Err
  adminErr : Option Err
  createErr : Option Err
  createIndexErr : Option Err
  insertErr : Option Err
  findErr : Option Err
  dropErr : Option Err

/-- The records currently in collection `k` (a missing collection reads
as empty: `findOne` on a missing collection returns no document). -/
def Db.recsOf (db : Db) (k : String) : List Rec :=
  ((db.colls k).getD Coll.empty).recs

/-- `db.command(\x7b ping: 1 \x7d)`: succeeds unless connectivity is down. -/
def Db.ping (db : Db) : Db × Option Err :=
  (db, db.pingErr)

/-- `db.executeDbAdminCommand(\x7b setParameter: 1, ttlMonitorSleepSecs: 1 \x7d)`:
privilege-gated; on success sets the server parameter to 1. -/
def Db.adminSetTtlMonitor (db : Db) : Db × Option Err :=
  match db.adminErr with
  | some e => (db, some e)
  | none => ({ db with ttlMonitorSleepSecs := 1 }, none)

/-- `db.createCollection(name)`: rejects with codeName `NamespaceExists`
when the collection already exists; otherwise may fail for another
injected reason (e.g. permission denial), else creates it empty. -/
def Db.createCollection (db : Db) (name : String) : Db × Option Err :=
  if (db.colls name).isSome then
    (db, some ⟨ "NamespaceExists" ⟩)
  else
    match db.createErr with
    | some e => (db, some e)
    | none =>
      ({ db with colls := fun n => if n = name then some Coll.empty else db.colls n },
       none)

/-- `collection.createIndex(\x7b createdAt: 1 \x7d, \x7b expireAfterSeconds \x7d)`:
may fail for an injected reason, else records the expiry policy on the
collection. -/
def Db.createTtlIndex (db : Db) (name : String) (secs : Int) : Db × Option Err :=
  match db.createIndexErr with
  | some e => (db, some e)
  | none =>
    ({ db with colls := fun n =>
        if n = name then (db.colls n).map (fun c => { c with expireAfterSeconds := some secs })
        else db.colls n },
     none)

/-- `collection.insertOne(\x7b leaderId, createdAt \x7d)`: atomic append of one
record carrying the next insertion identity (Mongo creates a missing
collection implicitly on insert). -/
def Db.insertRecord (db : Db) (k id : String) (now : Int) : Db × Option Err :=
  match db.insertErr with
  | some e => (db, some e)
  | none =>
    let c := (db.colls k).getD Coll.empty
    ({ db with
        colls := fun n =>
          if n = k then some { c with recs := c.recs ++ [⟨id, now, db.nextOid⟩] }
          else db.colls n,
        nextOid := db.nextOid + 1 },
     none)

/-- The sort order of the `findOne` query in `elect()`:
`sort: \x7b createdAt: 1, _id: 1 \x7d`, i.e. lexicographic on
(createdAt ascending, insertion identity ascending). -/
def Rec.lexLt (a b : Rec) : Bool :=
  a.createdAt < b.createdAt || (a.createdAt = b.createdAt && a.oid < b.oid)

/-- The record sorting first under `Rec.lexLt` (what
`findOne(\x7b\x7d, \x7b sort: \x7b createdAt: 1, _id: 1 \x7d \x7d)` returns), or
`none` on an empty collection (`findOne` resolves to `null`). -/
def findMin : List Rec → Option Rec
  | [] => none
  | r :: rs => some (rs.foldl (fun best x => if Rec.lexLt x best then x else best) r)

/-- The store's background TTL expiry sweep at time `now`: in every
collection carrying a TTL index, removes the records whose
`createdAt + expireAfterSeconds` (in ms) has elapsed.  This is the
store-side process that can remove records between the insert and the
query of an `elect()` call. -/
def Db.ttlSweep (db : Db) (now : Int) : Db :=
  { db with colls := fun n =>
      (db.colls n).map (fun c =>
        match c.expireAfterSeconds with
        | none => c
        | some s => { c with recs := c.recs.filter (fun r => decide (now < r.createdAt + s * 1000)) }) }

/-- `db.dropCollection(name)`: removes the collection; fails when the
store is unavailable (injected), or when the collection is absent. -/
def Db.dropCollection (db : Db) (name : String) : Db × Option Err :=
  match db.dropErr with
  | some e => (db, some e)
  | none =>
    if (db.colls name).isSome then
      ({ db with colls := fun n => if n = name then none else db.colls n }, none)
    else
      (db, some ⟨ "NamespaceNotFound" ⟩)

/-- The notifications a `Leader` emits. -/
inductive Ev where
  | elected
  | cleaned
deriving Repr, DecidableEq

/-- The in-process candidate state: the fields the constructor sets.
`key` is the group collection name (in the source,
`'leader-' + sha1(options.key or 'default')`, computed by the external
crypto library; modelled as an opaque string).  `ttlTime` is the
election deadline `Date.now() + ttl`. -/
structure Leader where
  id : String
  ttl : Int
  key : String
  ttlTime : Int
deriving Repr, DecidableEq

/-- The constructor's ttl computation: `Math.max(options.ttl || 0, 5000)`
(`options.ttl || 0` reads as the supplied number, or `0` when absent —
and `0 || 0` is `0`, so `Option.getD 0` is exact). -/
def Leader.mkTtl (ttlOpt : Option Int) : Int :=
  max (ttlOpt.getD 0) 5000

/-- The constructor, `new Leader(db, options)`, given the already-derived
`id` (supplied or random) and group collection name `key`, the supplied
`options.ttl`, and the construction instant `now`. -/
def Leader.make (id key : String) (ttlOpt : Option Int) (now : Int) : Leader :=
  { id := id, ttl := Leader.mkTtl ttlOpt, key := key,
    ttlTime := now + Leader.mkTtl ttlOpt }

/-- The `ping` / `executeDbAdminCommand` prefix of `initDatabase`'s
promise chain, up to and including its `.catch(() => return)`: a
rejection of either step is swallowed (the db connection may lack admin
privileges) and the chain proceeds with the store state as it then is. -/
def Db.initPingAdmin (db : Db) : Db :=
  match db.ping with
  | (db1, some _) => db1
  | (db1, none) =>
    match db1.adminSetTtlMonitor with
    | (db2, some _) => db2
    | (db2, none) => db2

/-- The `createCollection` / `createIndex` / final-`catch` suffix of
`initDatabase`'s promise chain: create the group collection, install the
TTL index with `expireAfterSeconds = ttl / 1000`, resolve to `true`; a
rejection whose `codeName` is `NamespaceExists` is normalized to
`true`, any other rejection propagates. -/
def Leader.initCreate (L : Leader) (db : Db) : Db × Except Err Bool :=
  match Db.createCollection db L.key with
  | (db1, some e) =>
    (db1, if e.codeName = "NamespaceExists" then .ok true else .error e)
  | (db1, none) =>
    match Db.createTtlIndex db1 L.key (L.ttl / 1000) with
    | (db2, some e) =>
      (db2, if e.codeName = "NamespaceExists" then .ok true else .error e)
    | (db2, none) => (db2, .ok true)

/-- `initDatabase()`: the whole promise chain. -/
def Leader.initDatabase (L : Leader) (db : Db) : Db × Except Err Bool :=
  L.initCreate db.initPingAdmin

/-- The outcome of an `elect()` call: the updated candidate (its
`ttlTime` is recomputed after the insert succeeds), the store state, the
settled promise value, and the notifications emitted. -/
structure ElectOut where
  leader : Leader
  db : Db
  res : Except Err Bool
  events : List Ev

/-- The second `.then` of `elect()`: run the sorted `findOne` and compare
`result.leaderId === this.id`; emit `elected` and resolve `true` on a
match, else resolve `false`.  When `findOne` resolves to `null` (no
record), `result.leaderId` throws a `TypeError`, rejecting the promise. -/
def Leader.electFinish (L : Leader) (db : Db) : ElectOut :=
  match db.findErr with
  | some e => ⟨L, db, .error e, []⟩
  | none =>
    match findMin (db.recsOf L.key) with
    | none => ⟨L, db, .error ⟨ "TypeError" ⟩, []⟩
    | some r =>
      if r.leaderId = L.id then ⟨L, db, .ok true, [.elected]⟩
      else ⟨L, db, .ok false, []⟩

/-- `elect()` at instant `now`: insert the record
`\x7b leaderId: this.id, createdAt: now \x7d`, set
`ttlTime = now + ttl`, then query and compare (`Leader.electFinish`). -/
def Leader.elect (L : Leader) (db : Db) (now : Int) : ElectOut :=
  match Db.insertRecord db L.key L.id now with
  | (db1, some e) => ⟨L, db1, .error e, []⟩
  | (db1, none) =>
    Leader.electFinish { L with ttlTime := now + L.ttl } db1

/-- The outcome of a `cleanup()` call: the store state, the settled
promise value, the notifications emitted, and the instant at which the
`dropCollection` call is issued (after the `setTimeout` wait). -/
structure CleanupOut where
  db : Db
  res : Except Err Unit
  events : List Ev
  dropIssuedAt : Int

/-- `cleanup()` called at instant `now`: waits
`wait(this.ttlTime - Date.now())` (a `setTimeout`, whose delay is
clamped to 0 when negative), then issues `dropCollection` and emits
`cleaned`.  The `dropCollection` promise is not returned from the
`.then` callback, so its result — success or failure — is discarded
and the promise returned by `cleanup()` resolves regardless. -/
def Leader.cleanup (L : Leader) (db : Db) (now : Int) : CleanupOut :=
  let fireAt := now + max (L.ttlTime - now) 0
  let db1 := (Db.dropCollection db L.key).1
  ⟨db1, .ok (), [.cleaned], fireAt⟩

/-- The serialized insert schedule of the spec's exactly-one-leader
property: the insert phases of all candidates' `elect()` calls, run one
after the other into the group collection `k`; each candidate is a pair
of its id and the instant of its insert. -/
def insertAll (k : String) (db : Db) : List (String × Int) → Db
  | [] => db
  | c :: rest => insertAll k (Db.insertRecord db k c.1 c.2).1 rest

/-- A baseline store state: no collections, counter at 0, the server's
default TTL-monitor cadence (60 s), and no injected failures. -/
def dbEmpty : Db :=
  ⟨fun _ => none, 0, 60, none, none, none, none, none, none, none⟩

/-- A sample candidate (id `alice`) in group collection `leader-k`. -/
def candA : Leader := ⟨ "alice", 5000, "leader-k", 9000⟩

/-- A store holding an (empty) group collection `leader-k`. -/
def dbWithColl : Db :=
  { dbEmpty with colls := fun n => if n = "leader-k" then some Coll.empty else none }

/-- `dbWithColl` with the store refusing drops (e.g. store unavailable). -/
def dbDropFails : Db :=
  { dbWithColl with dropErr := some ⟨ "HostUnreachable" ⟩ }

/-- `Leader.electFinish` never changes the candidate fields. -/
theorem electFinish_leader (L : Leader) (db : Db) : (L.electFinish db).leader = L := by
  unfold Leader.electFinish
  cases db.findErr with
  | some e => rfl
  | none =>
    cases findMin (db.recsOf L.key) with
    | none => rfl
    | some r =>
      by_cases h : r.leaderId = L.id <;> simp [h]

/-- `Leader.electFinish` never changes the store. -/
theorem electFinish_db (L : Leader) (db : Db) : (L.electFinish db).db = db := by
  unfold Leader.electFinish
  cases db.findErr with
  | some e => rfl
  | none =>
    cases findMin (db.recsOf L.key) with
    | none => rfl
    | some r =>
      by_cases h : r.leaderId = L.id <;> simp [h]

/-- C6: a configured ttl below 5000 ms (or absent) yields an effective
ttl of exactly 5000, with no rejection; a value at or above 5000 is kept
unchanged. -/
theorem ttl_clamped (id key : String) (now : Int) :
    (∀ t : Int, t < 5000 → (Leader.make id key (some t) now).ttl = 5000) ∧
    (Leader.make id key none now).ttl = 5000 ∧
    (∀ t : Int, 5000 ≤ t → (Leader.make id key (some t) now).ttl = t) := by
  refine ⟨fun t ht => ?_, ?_, fun t ht => ?_⟩ <;>
    simp only [Leader.make, Leader.mkTtl, Option.getD_some, Option.getD_none] <;> omega

/-- Witness for C6 at ttl values 100, absent, and 7000. -/
theorem ttl_clamped_witness :
    (Leader.make "a" "k" (some 100) 0).ttl = 5000 ∧
    (Leader.make "a" "k" none 0).ttl = 5000 ∧
    (Leader.make "a" "k" (some 7000) 0).ttl = 7000 :=
  ⟨(ttl_clamped "a" "k" 0).1 100 (by decide), (ttl_clamped "a" "k" 0).2.1,
   (ttl_clamped "a" "k" 0).2.2 7000 (by decide)⟩

/-- C4: after `elect()` ran at instant `tE`, the election deadline is
`tE + ttl`, and a later `cleanup()` issues the collection drop no
earlier than that deadline, so at least `ttl` of wall-clock time has
elapsed since the `elect()` when the drop is issued (the `setTimeout`
delay `ttlTime - now` may be ≤ 0, in which case it fires at once). -/
theorem cleanup_waits_full_ttl (L : Leader) (db db2 : Db) (tE now : Int)
    (hins : db.insertErr = none) :
    (L.elect db tE).leader.ttlTime = tE + L.ttl ∧
    (L.elect db tE).leader.ttlTime ≤ ((L.elect db tE).leader.cleanup db2 now).dropIssuedAt ∧
    L.ttl ≤ ((L.elect db tE).leader.cleanup db2 now).dropIssuedAt - tE := by
  have hld : (L.elect db tE).leader = { L with ttlTime := tE + L.ttl } := by
    unfold Leader.elect Db.insertRecord
    rw [hins]
    exact electFinish_leader _ _
  have hfire : ∀ (M : Leader) (d : Db) (t : Int),
      (M.cleanup d t).dropIssuedAt = t + max (M.ttlTime - t) 0 := fun _ _ _ => rfl
  refine ⟨by rw [hld], ?_, ?_⟩ <;> rw [hld, hfire] <;> simp only [] <;> omega

/-- Witness for C4: elect at t = 0 with ttl 5000, cleanup called at
t = 1000: the drop is issued at t = 5000. -/
theorem cleanup_waits_full_ttl_witness :
    (candA.elect dbWithColl 0).leader.ttlTime = 0 + candA.ttl ∧
    (candA.elect dbWithColl 0).leader.ttlTime ≤
      ((candA.elect dbWithColl 0).leader.cleanup dbWithColl 1000).dropIssuedAt ∧
    candA.ttl ≤ ((candA.elect dbWithColl 0).leader.cleanup dbWithColl 1000).dropIssuedAt - 0 :=
  cleanup_waits_full_ttl candA dbWithColl dbWithColl 0 1000 rfl

/-- C3 counterexample: the store refuses the drop
(`dropErr = HostUnreachable`), yet the promise returned by `cleanup()`
resolves — the failure does not propagate to the caller, because the
`dropCollection` promise is never returned or awaited. -/
theorem cleanup_drop_failure_claim_false :
    dbDropFails.dropErr = some ⟨ "HostUnreachable" ⟩ ∧
    (candA.cleanup dbDropFails 0).res = .ok () :=
  ⟨rfl, rfl⟩

/-- C3 (amended): if the collection drop inside `cleanup()` fails, the
failure does not propagate — `cleanup()` resolves regardless, the
drop's rejection being discarded — and no retry is attempted (the store
is left unchanged by the single failed drop). -/
theorem cleanup_drop_failure_not_propagated (L : Leader) (db : Db) (now : Int) :
    (L.cleanup db now).res = .ok () ∧
    ((db.dropErr).isSome → (L.cleanup db now).db = db) := by
  refine ⟨rfl, fun h => ?_⟩
  have : (L.cleanup db now).db = (Db.dropCollection db L.key).1 := rfl
  rw [this]
  unfold Db.dropCollection
  cases hd : db.dropErr with
  | some e => rfl
  | none => rw [hd] at h; simp at h

/-- Witness for C3 (amended) on the concrete failing store. -/
theorem cleanup_drop_failure_not_propagated_witness :
    (candA.cleanup dbDropFails 0).res = .ok () ∧
    (candA.cleanup dbDropFails 0).db = dbDropFails :=
  ⟨(cleanup_drop_failure_not_propagated candA dbDropFails 0).1,
   (cleanup_drop_failure_not_propagated candA dbDropFails 0).2 rfl⟩

/-- C7 counterexample: with the store refusing the drop, `cleanup()`
resolves and fires `cleaned`, yet the group's collection still exists —
so "after cleanup() resolves the collection no longer exists" and
"`cleaned` fires when the drop has completed" both fail as stated. -/
theorem cleanup_collection_removed_claim_false :
    (candA.cleanup dbDropFails 0).res = .ok () ∧
    (candA.cleanup dbDropFails 0).events = [.cleaned] ∧
    ((candA.cleanup dbDropFails 0).db.colls "leader-k").isSome = true := by
  refine ⟨rfl, rfl, ?_⟩
  rfl

/-- C7 (amended): when the drop succeeds, the group's collection no
longer exists once `cleanup()` resolves; the `cleaned` notification is
fired exactly once per `cleanup()` call, but it is emitted when the drop
is issued (the code does not await the drop's completion). -/
theorem cleanup_collection_removed (L : Leader) (db : Db) (now : Int) :
    (db.dropErr = none → ((L.cleanup db now).db.colls L.key) = none) ∧
    (L.cleanup db now).events = [.cleaned] := by
  refine ⟨fun hd => ?_, rfl⟩
  have : (L.cleanup db now).db = (Db.dropCollection db L.key).1 := rfl
  rw [this]
  unfold Db.dropCollection
  rw [hd]
  cases hc : db.colls L.key with
  | none => simp [hc]
  | some c => simp [hc]

/-- Witness for C7 (amended) on a store that holds the collection and
accepts the drop. -/
theorem cleanup_collection_removed_witness :
    ((candA.cleanup dbWithColl 0).db.colls "leader-k") = none ∧
    (candA.cleanup dbWithColl 0).events = [.cleaned] :=
  ⟨(cleanup_collection_removed candA dbWithColl 0).1 rfl,
   (cleanup_collection_removed candA dbWithColl 0).2⟩

/-- When the ping rejects, the swallowed prefix leaves the store as is. -/
theorem initPingAdmin_ping_some (db : Db) (e : Err) (hp : db.pingErr = some e) :
    db.initPingAdmin = db := by
  unfold Db.initPingAdmin Db.ping
  rw [hp]

/-- When the ping succeeds and the admin command rejects, the swallowed
prefix leaves the store as is. -/
theorem initPingAdmin_admin_some (db : Db) (e : Err) (hp : db.pingErr = none)
    (ha : db.adminErr = some e) : db.initPingAdmin = db := by
  unfold Db.initPingAdmin Db.ping Db.adminSetTtlMonitor
  rw [hp]
  simp [ha]

/-- When both the ping and the admin command succeed, the prefix only
shortens the TTL-monitor cadence. -/
theorem initPingAdmin_ok (db : Db) (hp : db.pingErr = none) (ha : db.adminErr = none) :
    db.initPingAdmin = { db with ttlMonitorSleepSecs := 1 } := by
  unfold Db.initPingAdmin Db.ping Db.adminSetTtlMonitor
  rw [hp]
  simp [ha, hp]

/-- The swallowed prefix never touches the collections nor the
error-injection fields read by the create phase. -/
theorem initPingAdmin_proj (db : Db) :
    db.initPingAdmin.colls = db.colls ∧
    db.initPingAdmin.createErr = db.createErr ∧
    db.initPingAdmin.createIndexErr = db.createIndexErr := by
  cases hp : db.pingErr with
  | some e => rw [initPingAdmin_ping_some db e hp]; exact ⟨rfl, rfl, rfl⟩
  | none =>
    cases ha : db.adminErr with
    | some e => rw [initPingAdmin_admin_some db e hp ha]; exact ⟨rfl, rfl, rfl⟩
    | none => rw [initPingAdmin_ok db hp ha]; exact ⟨rfl, rfl, rfl⟩

/-- The settled value of the create phase is either `true` or an error
other than `NamespaceExists` (which the final catch normalizes away). -/
theorem initCreate_res_shape (L : Leader) (db : Db) :
    (L.initCreate db).2 = .ok true ∨
    ∃ e, (L.initCreate db).2 = .error e ∧ e.codeName ≠ "NamespaceExists" := by
  unfold Leader.initCreate Db.createCollection Db.createTtlIndex
  by_cases hcs : (db.colls L.key).isSome = true
  · left; simp [hcs]
  · rw [if_neg hcs]
    cases hce : db.createErr with
    | some e =>
      by_cases hne : e.codeName = "NamespaceExists"
      · left; simp [hne]
      · right; exact ⟨e, by simp [hne], hne⟩
    | none =>
      cases hci : db.createIndexErr with
      | some e =>
        by_cases hne : e.codeName = "NamespaceExists"
        · left; simp [hci, hne]
        · right; exact ⟨e, by simp [hci, hne], hne⟩
      | none => left; simp [hci]

/-- A pre-existing group collection makes the create phase resolve to
`true` (`NamespaceExists` is caught and normalized). -/
theorem initCreate_exists_ok (L : Leader) (db : Db)
    (h : (db.colls L.key).isSome = true) : (L.initCreate db).2 = .ok true := by
  unfold Leader.initCreate Db.createCollection
  simp [h]

/-- The settled value of the create phase depends only on the
collections and the injected create/index failures. -/
theorem initCreate_res_congr (L : Leader) (db db' : Db)
    (h1 : db.colls = db'.colls) (h2 : db.createErr = db'.createErr)
    (h3 : db.createIndexErr = db'.createIndexErr) :
    (L.initCreate db).2 = (L.initCreate db').2 := by
  unfold Leader.initCreate Db.createCollection Db.createTtlIndex
  rw [h1, h2]
  by_cases hcs : (db'.colls L.key).isSome = true
  · simp [hcs]
  · rw [if_neg hcs, if_neg hcs]
    cases hce : db'.createErr with
    | some e => rfl
    | none => rw [h3]; cases hci : db'.createIndexErr <;> simp [hci]

/-- A fresh run of the create phase — collection absent, store failing
neither the create nor the index — resolves to `true`. -/
theorem initCreate_fresh_ok (L : Leader) (db : Db) (h1 : db.colls L.key = none)
    (h2 : db.createErr = none) (h3 : db.createIndexErr = none) :
    (L.initCreate db).2 = .ok true := by
  unfold Leader.initCreate Db.createCollection Db.createTtlIndex
  simp [h1, h2, h3]

/-- A collection-creation failure other than `NamespaceExists` (e.g.
permission denial) makes the create phase reject with that error. -/
theorem initCreate_createErr (L : Leader) (db : Db) (e : Err)
    (h1 : db.colls L.key = none) (h2 : db.createErr = some e)
    (hne : e.codeName ≠ "NamespaceExists") :
    (L.initCreate db).2 = .error e := by
  unfold Leader.initCreate Db.createCollection
  simp [h1, h2, hne]

/-- An index-creation failure other than `NamespaceExists` makes the
create phase reject with that error. -/
theorem initCreate_indexErr (L : Leader) (db : Db) (e : Err)
    (h1 : db.colls L.key = none) (h2 : db.createErr = none)
    (h3 : db.createIndexErr = some e) (hne : e.codeName ≠ "NamespaceExists") :
    (L.initCreate db).2 = .error e := by
  unfold Leader.initCreate Db.createCollection Db.createTtlIndex
  simp [h1, h2, h3, hne]

/-- C5: `initDatabase()` never resolves to `false`: any resolution is
`true`, any rejection carries an error other than `NamespaceExists`;
it resolves to `true` whenever the group's collection pre-exists
(`NamespaceExists` normalized to success) and whenever it is freshly
created with its expiry index; and it does reject on any other creation
failure — a non-`NamespaceExists` failure of the collection creation or
of the index creation propagates as that error. -/
theorem initDatabase_never_false (L : Leader) (db : Db) :
    (∀ b, (L.initDatabase db).2 = .ok b → b = true) ∧
    (∀ e, (L.initDatabase db).2 = .error e → e.codeName ≠ "NamespaceExists") ∧
    ((db.colls L.key).isSome = true → (L.initDatabase db).2 = .ok true) ∧
    (db.colls L.key = none → db.createErr = none → db.createIndexErr = none →
      (L.initDatabase db).2 = .ok true) ∧
    (∀ e, db.colls L.key = none → db.createErr = some e →
      e.codeName ≠ "NamespaceExists" → (L.initDatabase db).2 = .error e) ∧
    (∀ e, db.colls L.key = none → db.createErr = none → db.createIndexErr = some e →
      e.codeName ≠ "NamespaceExists" → (L.initDatabase db).2 = .error e) := by
  obtain ⟨hpc, hpe, hpi⟩ := initPingAdmin_proj db
  refine ⟨fun b hb => ?_, fun e he => ?_, fun hex => ?_, fun h1 h2 h3 => ?_,
    fun e h1 h2 hne => ?_, fun e h1 h2 h3 hne => ?_⟩
  · rcases initCreate_res_shape L db.initPingAdmin with h | ⟨e, he', _⟩
    · rw [Leader.initDatabase, h] at hb
      exact (Except.ok.inj hb).symm
    · rw [Leader.initDatabase, he'] at hb
      exact absurd hb (by simp)
  · rcases initCreate_res_shape L db.initPingAdmin with h | ⟨e', he', hne⟩
    · rw [Leader.initDatabase, h] at he
      exact absurd he (by simp)
    · rw [Leader.initDatabase, he'] at he
      rw [← Except.error.inj he]
      exact hne
  · rw [Leader.initDatabase]
    exact initCreate_exists_ok L db.initPingAdmin (by rw [hpc]; exact hex)
  · rw [Leader.initDatabase]
    exact initCreate_fresh_ok L db.initPingAdmin (by rw [hpc]; exact h1)
      (by rw [hpe]; exact h2) (by rw [hpi]; exact h3)
  · rw [Leader.initDatabase]
    exact initCreate_createErr L db.initPingAdmin e (by rw [hpc]; exact h1)
      (by rw [hpe]; exact h2) hne
  · rw [Leader.initDatabase]
    exact initCreate_indexErr L db.initPingAdmin e (by rw [hpc]; exact h1)
      (by rw [hpe]; exact h2) (by rw [hpi]; exact h3) hne

/-- Witness for C5: a pre-existing group collection resolves to `true`,
a fresh creation on the empty store resolves to `true`, and a
permission-denied collection creation rejects with that error. -/
theorem initDatabase_never_false_witness :
    (candA.initDatabase dbWithColl).2 = .ok true ∧
    (candA.initDatabase dbEmpty).2 = .ok true ∧
    (candA.initDatabase { dbEmpty with createErr := some ⟨ "Unauthorized" ⟩ }).2 =
      .error ⟨ "Unauthorized" ⟩ :=
  ⟨(initDatabase_never_false candA dbWithColl).2.2.1 rfl,
   (initDatabase_never_false candA dbEmpty).2.2.2.1 rfl rfl rfl,
   (initDatabase_never_false candA
      { dbEmpty with createErr := some ⟨ "Unauthorized" ⟩ }).2.2.2.2.1
     ⟨ "Unauthorized" ⟩ rfl rfl (by decide)⟩

/-- C8: a rejection of the best-effort admin expiry-sweep step is
swallowed: `initDatabase()` proceeds directly to the create phase, and
its settled value is the same as when the admin step succeeds. -/
theorem initDatabase_admin_failure_absorbed (L : Leader) (db : Db) (e : Err)
    (hp : db.pingErr = none) (ha : db.adminErr = some e) :
    L.initDatabase db = L.initCreate db ∧
    (L.initDatabase db).2 = (L.initDatabase { db with adminErr := none }).2 := by
  have h1 : L.initDatabase db = L.initCreate db := by
    rw [Leader.initDatabase, initPingAdmin_admin_some db e hp ha]
  refine ⟨h1, ?_⟩
  rw [h1, Leader.initDatabase,
    initPingAdmin_ok { db with adminErr := none } hp rfl]
  exact initCreate_res_congr L db _ rfl rfl rfl

/-- Witness for C8 on a concrete store whose admin command is refused. -/
theorem initDatabase_admin_failure_absorbed_witness :
    candA.initDatabase { dbEmpty with adminErr := some ⟨ "Unauthorized" ⟩ } =
      candA.initCreate { dbEmpty with adminErr := some ⟨ "Unauthorized" ⟩ } ∧
    (candA.initDatabase { dbEmpty with adminErr := some ⟨ "Unauthorized" ⟩ }).2 =
      (candA.initDatabase
        { { dbEmpty with adminErr := some ⟨ "Unauthorized" ⟩ } with adminErr := none }).2 :=
  initDatabase_admin_failure_absorbed candA
    { dbEmpty with adminErr := some ⟨ "Unauthorized" ⟩ } ⟨ "Unauthorized" ⟩ rfl rfl

/-- C10: the error-swallowing catch also covers the connectivity ping:
a ping rejection is absorbed, `initDatabase()` proceeds to the create
phase rather than rejecting, and its settled value is the same as under
an administrative-privilege failure. -/
theorem initDatabase_ping_failure_absorbed (L : Leader) (db : Db) (e e' : Err)
    (hp : db.pingErr = some e) :
    L.initDatabase db = L.initCreate db ∧
    (L.initDatabase db).2 =
      (L.initDatabase { db with pingErr := none, adminErr := some e' }).2 := by
  have h1 : L.initDatabase db = L.initCreate db := by
    rw [Leader.initDatabase, initPingAdmin_ping_some db e hp]
  refine ⟨h1, ?_⟩
  rw [h1, Leader.initDatabase,
    initPingAdmin_admin_some { db with pingErr := none, adminErr := some e' } e' rfl rfl]
  exact initCreate_res_congr L db _ rfl rfl rfl

/-- Witness for C10 on a concrete unreachable store. -/
theorem initDatabase_ping_failure_absorbed_witness :
    candA.initDatabase { dbEmpty with pingErr := some ⟨ "HostUnreachable" ⟩ } =
      candA.initCreate { dbEmpty with pingErr := some ⟨ "HostUnreachable" ⟩ } ∧
    (candA.initDatabase { dbEmpty with pingErr := some ⟨ "HostUnreachable" ⟩ }).2 =
      (candA.initDatabase
        { { dbEmpty with pingErr := some ⟨ "HostUnreachable" ⟩ } with
            pingErr := none, adminErr := some ⟨ "Unauthorized" ⟩ }).2 :=
  initDatabase_ping_failure_absorbed candA
    { dbEmpty with pingErr := some ⟨ "HostUnreachable" ⟩ }
    ⟨ "HostUnreachable" ⟩ ⟨ "Unauthorized" ⟩ rfl

/-- `insertOne` never touches the find-failure injection. -/
theorem insertRecord_findErr (db : Db) (k i : String) (t : Int) :
    ((db.insertRecord k i t).1).findErr = db.findErr := by
  unfold Db.insertRecord
  cases h : db.insertErr <;> simp [h]

/-- `insertOne` never touches the insert-failure injection. -/
theorem insertRecord_insertErr (db : Db) (k i : String) (t : Int) :
    ((db.insertRecord k i t).1).insertErr = db.insertErr := by
  unfold Db.insertRecord
  cases h : db.insertErr <;> simp [h]

/-- A successful `insertOne` appends exactly one record, carrying the
candidate's id, the insertion instant and the next insertion identity. -/
theorem insertRecord_recsOf (db : Db) (k i : String) (t : Int)
    (h : db.insertErr = none) :
    ((db.insertRecord k i t).1).recsOf k = db.recsOf k ++ [⟨i, t, db.nextOid⟩] := by
  unfold Db.insertRecord
  rw [h]
  simp [Db.recsOf]

/-- C9: when the sorted `findOne` of `elect()` returns no document (the
group collection is empty — or absent — at query time, e.g. after the
store's TTL expiry removed the candidate's own record between the insert
and the query), the promise rejects with the `TypeError` raised by
dereferencing `result.leaderId` on the missing result, instead of
resolving `false`; the success branch is reachable only when a document
is returned. -/
theorem elect_no_document_rejects :
    (∀ (L : Leader) (db : Db), db.findErr = none → db.recsOf L.key = [] →
      (L.electFinish db).res = .error ⟨ "TypeError" ⟩) ∧
    (∀ (L : Leader) (db : Db) (b : Bool), (L.electFinish db).res = .ok b →
      (findMin (db.recsOf L.key)).isSome = true) := by
  constructor
  · intro L db hf he
    unfold Leader.electFinish
    rw [hf, he]
    rfl
  · intro L db b hb
    unfold Leader.electFinish at hb
    cases hf : db.findErr with
    | some e => rw [hf] at hb; exact absurd hb (by simp)
    | none =>
      rw [hf] at hb
      cases hm : findMin (db.recsOf L.key) with
      | none => rw [hm] at hb; exact absurd hb (by simp)
      | some r => rfl

/-- A store state exhibiting C9's scenario by running the code itself:
the group is initialized (TTL index of 5 s), `alice` inserts her record
at t = 0, and the store's expiry sweep runs at t = 6000 — emptying the
collection before the query phase. -/
def dbExpired : Db :=
  Db.ttlSweep ((Db.insertRecord (candA.initDatabase dbEmpty).1 "leader-k" "alice" 0).1) 6000

/-- Witness for C9: on `dbExpired` the query phase of `elect()` rejects
with the `TypeError`. -/
theorem elect_no_document_rejects_witness :
    (candA.electFinish dbExpired).res = .error ⟨ "TypeError" ⟩ :=
  elect_no_document_rejects.1 candA dbExpired rfl (by decide)

/-- The settled value and the notifications of the query phase, given
what the sorted `findOne` returns. -/
theorem electFinish_res_of_findMin (L : Leader) (db : Db) (w : Rec)
    (hf : db.findErr = none) (hm : findMin (db.recsOf L.key) = some w) :
    (L.electFinish db).res = (if w.leaderId = L.id then Except.ok true else Except.ok false) ∧
    (L.electFinish db).events = (if w.leaderId = L.id then [Ev.elected] else []) := by
  unfold Leader.electFinish
  rw [hf, hm]
  by_cases h : w.leaderId = L.id <;> simp [h]

/-- `findMin` of a nonempty collection returns a document. -/
theorem findMin_isSome (l : List Rec) (h : l ≠ []) : (findMin l).isSome = true := by
  cases l with
  | nil => exact absurd rfl h
  | cons x xs => rfl

/-- C2: `elect()` first inserts exactly one new record for this
candidate (its id, the insertion instant, the store's next insertion
identity), then queries the record sorting first under
(createdAt ascending, insertion-identity ascending), and resolves `true`
emitting the `elected` notification iff that record's candidate id is
this candidate's id; otherwise it resolves `false` with no
notification. -/
theorem elect_spec (L : Leader) (db : Db) (now : Int)
    (hins : db.insertErr = none) (hfind : db.findErr = none) :
    ∃ w, ((L.elect db now).db).recsOf L.key = db.recsOf L.key ++ [⟨L.id, now, db.nextOid⟩] ∧
      findMin (((L.elect db now).db).recsOf L.key) = some w ∧
      ((L.elect db now).res = .ok true ∧ (L.elect db now).events = [.elected] ↔
        w.leaderId = L.id) ∧
      ((L.elect db now).res = .ok false ∧ (L.elect db now).events = [] ↔
        ¬w.leaderId = L.id) := by
  have helect : L.elect db now =
      Leader.electFinish { L with ttlTime := now + L.ttl } (db.insertRecord L.key L.id now).1 := by
    unfold Leader.elect
    unfold Db.insertRecord
    rw [hins]
  have hrecs : ((db.insertRecord L.key L.id now).1).recsOf L.key =
      db.recsOf L.key ++ [⟨L.id, now, db.nextOid⟩] :=
    insertRecord_recsOf db L.key L.id now hins
  have hf1 : ((db.insertRecord L.key L.id now).1).findErr = none := by
    rw [insertRecord_findErr]; exact hfind
  have hne : ((db.insertRecord L.key L.id now).1).recsOf L.key ≠ [] := by
    rw [hrecs]; simp
  obtain ⟨w, hw⟩ := Option.isSome_iff_exists.mp (findMin_isSome _ hne)
  obtain ⟨hres, hev⟩ :=
    electFinish_res_of_findMin { L with ttlTime := now + L.ttl } _ w hf1 hw
  have hdb : (L.elect db now).db = (db.insertRecord L.key L.id now).1 := by
    rw [helect]; exact electFinish_db _ _
  refine ⟨w, by rw [hdb]; exact hrecs, by rw [hdb]; exact hw, ?_, ?_⟩ <;>
    rw [helect, hres, hev] <;>
    by_cases h : w.leaderId = L.id <;> simp [h]

/-- Witness for C2: `alice` electing alone on an empty group collection
resolves `true` and emits `elected`. -/
theorem elect_spec_witness :
    (candA.elect dbWithColl 0).res = .ok true ∧
    (candA.elect dbWithColl 0).events = [.elected] := by
  obtain ⟨w, h1, h2, h3, h4⟩ := elect_spec candA dbWithColl 0 rfl rfl
  have hw : findMin ((candA.elect dbWithColl 0).db.recsOf candA.key) =
      some ⟨ "alice", 0, 0⟩ := by decide
  rw [hw] at h2
  exact h3.mpr (by rw [← Option.some.inj h2]; rfl)

/-- Resolved-as-leader discriminator on settled `elect()` values. -/
def isOkTrue : Except Err Bool → Bool
  | .ok true => true
  | _ => false

/-- Resolved-as-follower discriminator on settled `elect()` values. -/
def isOkFalse : Except Err Bool → Bool
  | .ok false => true
  | _ => false

/-- `insertAll` never touches the find-failure injection. -/
theorem insertAll_findErr (k : String) (cs : List (String × Int)) (db : Db) :
    (insertAll k db cs).findErr = db.findErr := by
  induction cs generalizing db with
  | nil => rfl
  | cons c rest ih => rw [insertAll, ih, insertRecord_findErr]

/-- `insertAll` never touches the insert-failure injection. -/
theorem insertAll_insertErr (k : String) (cs : List (String × Int)) (db : Db) :
    (insertAll k db cs).insertErr = db.insertErr := by
  induction cs generalizing db with
  | nil => rfl
  | cons c rest ih => rw [insertAll, ih, insertRecord_insertErr]

/-- After the serialized insert phase, the candidate ids on the group's
records are the prior ones followed by the schedule's ids, in order. -/
theorem insertAll_leaderIds (k : String) (cs : List (String × Int)) (db : Db)
    (h : db.insertErr = none) :
    ((insertAll k db cs).recsOf k).map Rec.leaderId =
      (db.recsOf k).map Rec.leaderId ++ cs.map Prod.fst := by
  induction cs generalizing db with
  | nil => simp [insertAll]
  | cons c rest ih =>
    rw [insertAll, ih _ (by rw [insertRecord_insertErr]; exact h),
      insertRecord_recsOf db k c.1 c.2 h]
    simp

/-- The running best of the sorted scan is one of the scanned records. -/
theorem foldl_pick_mem (l : List Rec) (b : Rec) :
    l.foldl (fun best x => if Rec.lexLt x best then x else best) b ∈ b :: l := by
  induction l generalizing b with
  | nil => simp
  | cons x xs ih =>
    rw [List.foldl_cons]
    rcases List.mem_cons.mp (ih (if Rec.lexLt x b then x else b)) with h1 | h1
    · rw [h1]
      by_cases hx : Rec.lexLt x b <;> simp [hx]
    · exact List.mem_cons.mpr (Or.inr (List.mem_cons.mpr (Or.inr h1)))

/-- The document returned by the sorted `findOne` is one of the
collection's records. -/
theorem findMin_mem (l : List Rec) (w : Rec) (h : findMin l = some w) : w ∈ l := by
  cases l with
  | nil => exact absurd h (by simp [findMin])
  | cons x xs =>
    rw [findMin] at h
    rw [← Option.some.inj h]
    exact foldl_pick_mem xs x

/-- Counting leaders and followers among the verdicts derived from a
single winning id. -/
theorem count_map_if (w : String) (ids : List String) :
    ((ids.map (fun i => if w = i then (Except.ok true : Except Err Bool) else Except.ok false)).countP isOkTrue
        = ids.count w) ∧
    ((ids.map (fun i => if w = i then (Except.ok true : Except Err Bool) else Except.ok false)).countP isOkFalse
        = ids.length - ids.count w) := by
  induction ids with
  | nil => exact ⟨rfl, rfl⟩
  | cons i rest ih =>
    have hle : rest.count w ≤ rest.length := List.count_le_length w rest
    by_cases h : w = i
    · constructor
      · simp only [List.map_cons, List.countP_cons, List.count_cons, if_pos h, ih.1]
        simp [h, isOkTrue]
      · simp only [List.map_cons, List.countP_cons, List.count_cons, if_pos h, ih.2]
        simp only [isOkFalse]
        simp [h]
    · constructor
      · simp only [List.map_cons, List.countP_cons, List.count_cons, if_neg h, ih.1]
        have : (i == w) = false := by simp [BEq.beq]; exact fun he => h he.symm
        simp [this, isOkTrue]
      · simp only [List.map_cons, List.countP_cons, List.count_cons, if_neg h, ih.2]
        have : (i == w) = false := by simp [BEq.beq]; exact fun he => h he.symm
        simp [this, isOkFalse]
        omega

/-- C1: under a serialized insert schedule — all N candidates of a group
(pairwise-distinct ids, N ≥ 1) run the insert of their `elect()` before
any runs its sorted query — on an initially empty group collection with
no store failures, exactly one candidate's `elect()` resolves `true` and
the other N−1 resolve `false`. -/
theorem elect_exactly_one_leader (k : String) (cands : List (String × Int))
    (db0 : Db) (ttl ttlT : Int)
    (hne : cands ≠ []) (hnd : (cands.map Prod.fst).Nodup)
    (hins : db0.insertErr = none) (hfind : db0.findErr = none)
    (hempty : db0.recsOf k = []) :
    ((cands.map (fun c =>
        (Leader.electFinish ⟨c.1, ttl, k, ttlT⟩ (insertAll k db0 cands)).res)).countP isOkTrue
      = 1) ∧
    ((cands.map (fun c =>
        (Leader.electFinish ⟨c.1, ttl, k, ttlT⟩ (insertAll k db0 cands)).res)).countP isOkFalse
      = cands.length - 1) := by
  set db' := insertAll k db0 cands with hdb'
  have hf' : db'.findErr = none := by rw [hdb', insertAll_findErr]; exact hfind
  have hids : (db'.recsOf k).map Rec.leaderId = cands.map Prod.fst := by
    rw [hdb', insertAll_leaderIds k cands db0 hins, hempty]; simp
  have hrne : db'.recsOf k ≠ [] := by
    intro h
    rw [h] at hids
    exact hne (List.map_eq_nil_iff.mp hids.symm)
  obtain ⟨w, hw⟩ := Option.isSome_iff_exists.mp (findMin_isSome _ hrne)
  have hwmem : w.leaderId ∈ cands.map Prod.fst := by
    rw [← hids]
    exact List.mem_map_of_mem Rec.leaderId (findMin_mem _ w hw)
  have hpoint : ∀ c : String × Int,
      (Leader.electFinish ⟨c.1, ttl, k, ttlT⟩ db').res =
        (if w.leaderId = c.1 then Except.ok true else Except.ok false) := fun c =>
    (electFinish_res_of_findMin ⟨c.1, ttl, k, ttlT⟩ db' w hf' hw).1
  have hmap : cands.map (fun c => (Leader.electFinish ⟨c.1, ttl, k, ttlT⟩ db').res) =
      (cands.map Prod.fst).map
        (fun i => if w.leaderId = i then Except.ok true else Except.ok false) := by
    rw [List.map_map]
    exact List.map_congr_left fun c _ => hpoint c
  rw [hmap]
  constructor
  · rw [(count_map_if w.leaderId (cands.map Prod.fst)).1]
    exact List.count_eq_one_of_mem hnd hwmem
  · rw [(count_map_if w.leaderId (cands.map Prod.fst)).2,
      List.count_eq_one_of_mem hnd hwmem, List.length_map]

/-- Witness for C1: `alice` (insert at t = 0) and `bob` (insert at
t = 1) both fully insert before either queries; exactly one `true`,
exactly one `false`. -/
theorem elect_exactly_one_leader_witness :
    (([( "alice", (0 : Int)), ( "bob", 1)].map (fun c =>
        (Leader.electFinish ⟨c.1, 5000, "leader-k", 0⟩
          (insertAll "leader-k" dbEmpty [( "alice", 0), ( "bob", 1)])).res)).countP isOkTrue
      = 1) ∧
    (([( "alice", (0 : Int)), ( "bob", 1)].map (fun c =>
        (Leader.electFinish ⟨c.1, 5000, "leader-k", 0⟩
          (insertAll "leader-k" dbEmpty [( "alice", 0), ( "bob", 1)])).res)).countP isOkFalse
      = 2 - 1) :=
  elect_exactly_one_leader "leader-k" [( "alice", 0), ( "bob", 1)] dbEmpty 5000 0
    (by decide) (by decide) rfl rfl rfl

end LeaderElection
